import Mathlib

/-!
Verification of the selection-state synchronization engine of a hierarchical
multi-mode dropdown control (single-flat, single-tree, multi-flat, multi-tree
selection with optional live search).

The development is a shallow embedding of the engine: DOM checkbox state is
modelled as explicit record fields (`checked`, `indeterminate`, the
`ddl-selected` class as `selected`, the absence of the `ddl-hidden` class as
`visible`), strings as lists of characters, and each engine entry point as a
pure function from state to state.  Event dispatch (`dispatchEvent('change')`)
is modelled by invoking the corresponding change handler inline, exactly where
the source dispatches it.  Presentation-only effects (highlight classes,
header text, console logging) carry no mark state and are outside the model.
-/

namespace DDL

/-- Strings are modelled as lists of characters, so that the character-level
string manipulation of the identifier resolver can be reasoned about directly. -/
abbrev Str := List Char

/-- A child node: one `ddl-child` row with its (optional) checkbox state.
`visible` models the absence of the `ddl-hidden` class; `selected` models the
`ddl-selected` class used by the single-select modes. -/
structure ChildNode where
  id : Str := []
  name : Str := []
  checked : Bool := false
  indeterminate : Bool := false
  selected : Bool := false
  visible : Bool := true
deriving DecidableEq, Repr

/-- A parent node: one `ddl-parent` block, its label/checkbox state and its
(child) rows in document order. -/
structure ParentNode where
  id : Str := []
  name : Str := []
  checked : Bool := false
  indeterminate : Bool := false
  selected : Bool := false
  visible : Bool := true
  children : List ChildNode := []
deriving DecidableEq, Repr

/-! ## Tri-state propagation engine

`handleChildCheckboxChange` (children-to-parent recomputation) and
`handleParentCheckboxChange` (parent-to-children propagation), translated from
`customControl.js`.  Both handlers locate the parent subtree through the
container's DOM; here the affected parent is passed directly.  The
`hasActiveSearch` flag models `searchBox.value.trim() !== ''` at call time. -/

/-- Children-to-parent recomputation run by the `change` handler of a child
checkbox (`handleChildCheckboxChange` in `customControl.js`).  Only the
parent's mark fields are written; the children are only read. -/
def handleChildCheckboxChange (hasActiveSearch : Bool) (p : ParentNode) : ParentNode :=
  if hasActiveSearch then
    -- During search: only consider visible children for the parent state.
    let visibleChildren := p.children.filter (fun c => c.visible)
    if 0 < visibleChildren.length then
      let visibleChecked := (visibleChildren.filter (fun c => c.checked)).length
      if visibleChecked = 0 then
        -- No visible children checked: uncheck only if no children checked at all.
        if p.children.any (fun c => c.checked) then p
        else { p with checked := false, indeterminate := false }
      else if visibleChecked = visibleChildren.length then
        { p with checked := true, indeterminate := false }
      else
        { p with checked := false, indeterminate := true }
    else p
  else
    -- No active search: consider all children.
    let checkedCount := (p.children.filter (fun c => c.checked)).length
    if checkedCount = 0 then
      { p with checked := false, indeterminate := false }
    else if checkedCount = p.children.length then
      { p with checked := true, indeterminate := false }
    else
      { p with checked := false, indeterminate := true }

/-- Parent-to-children propagation run by the `change` handler of a parent
checkbox (`handleParentCheckboxChange` in `customControl.js`).  The handler
reads the parent checkbox's current `checked` value and copies it onto every
child in scope (all children, or only visible ones during an active search).
It does not write the parent's own mark fields. -/
def handleParentCheckboxChange (hasActiveSearch : Bool) (p : ParentNode) : ParentNode :=
  { p with children := p.children.map (fun c =>
      if !hasActiveSearch || c.visible then { c with checked := p.checked } else c) }

/-- Per-parent recomputation performed by `recalculateParentStatesForSearch`
(`customControl.js`), run for every parent after the search collaborator
changed node visibility while a filter is active. -/
def recalcParentForSearch (p : ParentNode) : ParentNode :=
  let visibleChildren := p.children.filter (fun c => c.visible)
  if visibleChildren.length = 0 then p
  else
    let visibleChecked := (visibleChildren.filter (fun c => c.checked)).length
    if visibleChecked = 0 then
      -- Uncheck the parent only if no children are checked at all.
      if (p.children.filter (fun c => c.checked)).length = 0 then
        { p with checked := false, indeterminate := false }
      else p
    else if visibleChecked = visibleChildren.length then
      { p with checked := true, indeterminate := false }
    else
      { p with checked := false, indeterminate := true }

/-- Container-wide parent-state recomputation during an active search
(`recalculateParentStatesForSearch` in `customControl.js`). -/
def recalculateParentStatesForSearch (ps : List ParentNode) : List ParentNode :=
  ps.map recalcParentForSearch

/-! ## Bulk toggle engine

`toggleAllSelections(containerId, shouldSelect, respectSearch)` from
`customControl.js`.  In tree view the method first processes the (visible)
parent checkboxes in document order and then the (visible) child checkboxes in
document order; every checkbox whose mark needs updating is set and its
`change` event dispatched, which synchronously runs
`handleParentCheckboxChange` / `handleChildCheckboxChange` for its subtree.
Since every such handler only reads and writes within the subtree of one
parent, the two passes act independently on each parent's subtree, which the
embedding expresses as a map over the parents of the parent-checkbox pass
followed by a map of the (sequential, per-subtree) child-checkbox pass. -/

/-- Processing of one parent checkbox inside `toggleAllSelections` (tree
view): the visibility guard, the `needsUpdate` test, the mark write and the
dispatched `change` event running `handleParentCheckboxChange`. -/
def toggleParentStep (shouldSelect hasActiveSearch : Bool) (p : ParentNode) : ParentNode :=
  if hasActiveSearch && !p.visible then p
  else
    let needsUpdate := if shouldSelect then !p.checked else (p.checked || p.indeterminate)
    if needsUpdate then
      handleParentCheckboxChange hasActiveSearch
        { p with checked := shouldSelect,
                 indeterminate := if shouldSelect then p.indeterminate else false }
    else p
  -- Clearing resets `indeterminate`; selecting writes only `checked`.

/-- Sequential processing of the child checkboxes of one parent inside
`toggleAllSelections` (tree view).  `done` are the already processed children,
`todo` the remaining ones; a fired `change` event recomputes the parent mark
from the full current child list via `handleChildCheckboxChange`. -/
def toggleChildrenLoop (shouldSelect hasActiveSearch : Bool) :
    ParentNode → List ChildNode → List ChildNode → ParentNode
  | p, done, [] => { p with children := done }
  | p, done, c :: todo =>
    if hasActiveSearch && !c.visible then
      toggleChildrenLoop shouldSelect hasActiveSearch p (done ++ [c]) todo
    else
      let needsUpdate := if shouldSelect then !c.checked else (c.checked || c.indeterminate)
      if needsUpdate then
        let c1 : ChildNode :=
          { c with checked := shouldSelect,
                   indeterminate := if shouldSelect then c.indeterminate else false }
        toggleChildrenLoop shouldSelect hasActiveSearch
          (handleChildCheckboxChange hasActiveSearch { p with children := done ++ c1 :: todo })
          (done ++ [c1]) todo
      else
        toggleChildrenLoop shouldSelect hasActiveSearch p (done ++ [c]) todo

/-- Processing of one parent checkbox in the flat-view branch of
`toggleAllSelections`: `needsUpdate` ignores `indeterminate` when clearing and
no `change` event is dispatched. -/
def toggleFlatStep (shouldSelect hasActiveSearch : Bool) (p : ParentNode) : ParentNode :=
  if hasActiveSearch && !p.visible then p
  else
    let needsUpdate := if shouldSelect then !p.checked else p.checked
    if needsUpdate then
      { p with checked := shouldSelect,
               indeterminate := if shouldSelect then p.indeterminate else false }
    else p

/-- `toggleAllSelections(containerId, shouldSelect, respectSearch)` from
`customControl.js`.  `searchActive` models `searchBox.value.trim() !== ''`;
`hasTreeView` models the auto-detection of a `ddl-children` element. -/
def toggleAllSelections (shouldSelect respectSearch searchActive hasTreeView : Bool)
    (ps : List ParentNode) : List ParentNode :=
  let hasActiveSearch := respectSearch && searchActive
  if hasTreeView then
    (ps.map (toggleParentStep shouldSelect hasActiveSearch)).map
      (fun p => toggleChildrenLoop shouldSelect hasActiveSearch p [] p.children)
  else
    ps.map (toggleFlatStep shouldSelect hasActiveSearch)

/-- The effect of the child-checkbox pass of `toggleAllSelections` on a single
child entry (used to describe `toggleChildrenLoop`): skipped when hidden under
an active search, otherwise set to the target state when `needsUpdate` holds. -/
def childToggleFun (shouldSelect hasActiveSearch : Bool) (c : ChildNode) : ChildNode :=
  if hasActiveSearch && !c.visible then c
  else if (if shouldSelect then !c.checked else (c.checked || c.indeterminate)) then
    { c with checked := shouldSelect,
             indeterminate := if shouldSelect then c.indeterminate else false }
  else c

/-- A node hidden by the search filter keeps its state. -/
def hiddenKept (c c' : ChildNode) : Prop := c.visible = false → c' = c

/-- Frame relation for one parent subtree under a search-respecting bulk
toggle: a hidden parent is untouched, and hidden children are untouched. -/
def HiddenPreserved (p q : ParentNode) : Prop :=
  (p.visible = false → q = p) ∧
  List.Forall₂ hiddenKept p.children q.children

/-! ## Node identity resolver

`generateId`, `validateId`, `resetIdTracker` and the ID-generation trace of
`renderOptions`, together with `extractContainerIdFromElement`.  JavaScript
string truthiness is modelled faithfully: an omitted argument and the empty
string are both falsy. -/

/-- `generateId(containerId, parentId, childId)` from `customControl.js`:
`childId ? containerId-parentId-childId : containerId-parentId`.  The test is
JavaScript truthiness, so an omitted `childId` and an empty-string `childId`
both select the parent form. -/
def generateId (containerId parentId : Str) (childId : Option Str) : Str :=
  match childId with
  | some ch =>
    if ch.isEmpty then containerId ++ '-' :: parentId
    else containerId ++ '-' :: parentId ++ '-' :: ch
  | none => containerId ++ '-' :: parentId

/-- `validateId` tracking state: returns whether the ID was not seen yet and
the updated seen set (`usedIds`); a duplicate is reported (diagnostic only)
and not recorded again. -/
def validateId (usedIds : List Str) (generatedId : Str) : Bool × List Str :=
  if generatedId ∈ usedIds then (false, usedIds)
  else (true, generatedId :: usedIds)

/-- `resetIdTracker`: clears the seen set. -/
def resetIdTracker (_usedIds : List Str) : List Str := []

/-- The `generateId` of the renderer module: generates the composite ID and
feeds it through `validateId` (the returned flag is only used for the
diagnostic). -/
def generateIdChecked (usedIds : List Str) (containerId parentId : Str)
    (childId : Option Str) : Str × List Str :=
  let generatedId := generateId containerId parentId childId
  (generatedId, (validateId usedIds generatedId).2)

/-- ID generation performed for the children of one parent during
`renderOptions` (document order). -/
def renderChildIds (containerId parentId : Str) :
    List Str → List Str → List Str × List Str
  | [], usedIds => ([], usedIds)
  | ch :: rest, usedIds =>
    let r1 := generateIdChecked usedIds containerId parentId (some ch)
    let r2 := renderChildIds containerId parentId rest r1.2
    (r1.1 :: r2.1, r2.2)

/-- ID generation performed for a list of parents (with their child ID lists)
during `renderOptions`: one parent ID each, then its child IDs when tree view
is enabled and the parent has children. -/
def renderParentIds (containerId : Str) (treeView : Bool) :
    List (Str × List Str) → List Str → List Str × List Str
  | [], usedIds => ([], usedIds)
  | (pid, childIds) :: rest, usedIds =>
    let r1 := generateIdChecked usedIds containerId pid none
    let r2 := if treeView && !childIds.isEmpty then
                renderChildIds containerId pid childIds r1.2
              else ([], r1.2)
    let r3 := renderParentIds containerId treeView rest r2.2
    (r1.1 :: (r2.1 ++ r3.1), r3.2)

/-- The ID-generation trace of `renderOptions` (renderer module): the tracker
is reset before any ID is generated. -/
def renderOptionsIds (containerId : Str) (treeView : Bool)
    (data : List (Str × List Str)) (usedIds : List Str) : List Str × List Str :=
  renderParentIds containerId treeView data (resetIdTracker usedIds)

/-- JavaScript `String.prototype.replace` with a string pattern and empty
replacement: removes the first occurrence of `pattern`. -/
def replaceFirst : Str → Str → Str
  | [], _ => []
  | a :: rest, pattern =>
    if pattern.isPrefixOf (a :: rest) then (a :: rest).drop pattern.length
    else a :: replaceFirst rest pattern

/-- JavaScript `String.prototype.split` with a single-character separator. -/
def splitOnChar (sep : Char) : Str → List Str
  | [] => [[]]
  | a :: rest =>
    if a = sep then [] :: splitOnChar sep rest
    else
      match splitOnChar sep rest with
      | [] => [[a]]
      | h :: t => (a :: h) :: t

/-- JavaScript `String.prototype.endsWith`. -/
def strEndsWith (s suffix : Str) : Bool := suffix.isSuffixOf s

/-- The `'-checkbox'` suffix appended to composite IDs for checkbox
elements. -/
def checkboxSuffix : Str := "-checkbox".toList

/-- `extractContainerIdFromElement` from `customControl.js`, on the element's
`id` string: strips the first occurrence of `-checkbox`, splits on `-`, and
takes the first segment when the split has 2 or 3 parts (parent and child
composite IDs); otherwise rejoins all but the last part. -/
def extractContainerIdFromElement (elementId : Str) : Option Str :=
  if elementId = [] then none
  else if strEndsWith elementId checkboxSuffix then
    let withoutCheckbox := replaceFirst elementId checkboxSuffix
    let parts := splitOnChar '-' withoutCheckbox
    if 2 ≤ parts.length then
      if parts.length = 2 then parts.head?
      else if parts.length = 3 then parts.head?
      else some (List.intercalate ['-'] parts.dropLast)
    else none
  else none

/-! ## Selection extraction and injection

`getDDLData` / `setDDLData` and the per-mode readers and writers they
dispatch to.  A `Dropdown` models one rendered control: the mode flags are
the auto-detected `hasMultiSelect` (a `ddl-checkbox` exists) and `hasTreeView`
(a `ddl-children` element exists), `searchActive` models a non-empty search
box, and `parents` the rendered rows.  In non-tree modes no child rows are
rendered, so the `children` lists are empty there. -/

structure Dropdown where
  hasMultiSelect : Bool
  hasTreeView : Bool
  searchActive : Bool := false
  parents : List ParentNode
deriving DecidableEq, Repr

/-- One entry of the `selected` array returned by `getDDLData`, per mode:
`flatEntry` for multi-flat, `treeEntry` (with `(id, name)` child pairs) for
multi-tree, and the two single-select shapes (a selected child carries its
parent back-reference). -/
inductive SelectedEntry where
  | flatEntry (id name : Str)
  | treeEntry (id name : Str) (children : List (Str × Str))
  | singleParent (id name : Str)
  | singleChild (id name parentId parentName : Str)
deriving DecidableEq, Repr

/-- The result object of `getDDLData`: `selectionType` is `none` when the
container is unresolvable (the source returns `null`). -/
structure DDLResult where
  selected : List SelectedEntry
  hasData : Bool
  selectionType : Option Str
deriving DecidableEq, Repr

/-- Whether a parent label carries the `ddl-option` name in single-select
rendering: parents are selectable unless the control is a tree and the parent
has children. -/
def isSingleOption (hasTreeView : Bool) (p : ParentNode) : Bool :=
  !hasTreeView || p.children.isEmpty

/-- A `ddl-option` element in document order: a selectable parent label or a
child row. -/
inductive OptionEntry where
  | parentOpt (p : ParentNode)
  | childOpt (parentId : Str) (c : ChildNode)
deriving DecidableEq, Repr

/-- All `ddl-option` elements of a single-select control in document order. -/
def allOptionEntries (hasTreeView : Bool) : List ParentNode → List OptionEntry
  | [] => []
  | p :: rest =>
    (if isSingleOption hasTreeView p then [OptionEntry.parentOpt p] else []) ++
    (if hasTreeView then p.children.map (OptionEntry.childOpt p.id) else []) ++
    allOptionEntries hasTreeView rest

/-- Whether an option element carries the `ddl-selected` name. -/
def optionSelected : OptionEntry → Bool
  | .parentOpt p => p.selected
  | .childOpt _ c => c.selected

/-- `getSingleSelectedData` from `customControl.js`: the first `ddl-option`
with `ddl-selected`, returned as a parent item or as a child item with its
parent's `{id, name}` (name looked up from the first parent label with the
matching `data-id`). -/
def getSingleSelectedData (st : Dropdown) : Option SelectedEntry :=
  match (allOptionEntries st.hasTreeView st.parents).find? optionSelected with
  | some (.parentOpt p) => some (.singleParent p.id p.name)
  | some (.childOpt pid c) =>
    let parentName :=
      match st.parents.find? (fun q => q.id == pid) with
      | some q => q.name
      | none => []
    some (.singleChild c.id c.name pid parentName)
  | none => none

/-- `getFlatSelectedData` from `customControl.js`: every checked parent
checkbox, resolved against the extracted data by ID. -/
def getFlatSelectedData (st : Dropdown) : List SelectedEntry :=
  (st.parents.filter (fun p => p.checked)).filterMap (fun cb =>
    match st.parents.find? (fun p => p.id == cb.id) with
    | some p => some (SelectedEntry.flatEntry p.id p.name)
    | none => none)

/-- The child checkboxes matching `data-parent-id = pid`, container-wide in
document order (`querySelectorAll` semantics). -/
def childCheckboxesFor (ps : List ParentNode) (pid : Str) : List ChildNode :=
  ((ps.filter (fun q => q.id == pid)).map (fun q => q.children)).flatten

/-- `getTreeViewSelectedData` from `customControl.js`: a parent entry appears
when its checkbox is checked or when it has checked children; the `children`
array carries the checked children resolved against the parent's data. -/
def getTreeViewSelectedData (st : Dropdown) : List SelectedEntry :=
  st.parents.filterMap (fun parent =>
    let parentCheckbox := st.parents.find? (fun q => q.id == parent.id)
    let checkedChildren := (childCheckboxesFor st.parents parent.id).filter (fun c => c.checked)
    let selChildren := checkedChildren.filterMap (fun cb =>
      match parent.children.find? (fun c => c.id == cb.id) with
      | some child => some (child.id, child.name)
      | none => none)
    match parentCheckbox with
    | some pcb =>
      if pcb.checked then
        some (.treeEntry parent.id parent.name
          (if !parent.children.isEmpty && !checkedChildren.isEmpty then selChildren else []))
      else if !checkedChildren.isEmpty then
        some (.treeEntry parent.id parent.name selChildren)
      else none
    | none =>
      if !checkedChildren.isEmpty then
        some (.treeEntry parent.id parent.name selChildren)
      else none)

/-- `getDDLData` from `customControl.js`.  An unresolvable container yields
the empty result with a `null` selection type. -/
def getDDLData : Option Dropdown → DDLResult
  | none => { selected := [], hasData := false, selectionType := none }
  | some st =>
    let selectedData :=
      if st.hasMultiSelect then
        if st.hasTreeView then getTreeViewSelectedData st else getFlatSelectedData st
      else
        match getSingleSelectedData st with
        | some item => [item]
        | none => []
    let selectionType :=
      if st.hasMultiSelect then
        if st.hasTreeView then "multi-tree".toList else "multi-flat".toList
      else
        if st.hasTreeView then "single-tree".toList else "single-flat".toList
    { selected := selectedData,
      hasData := !selectedData.isEmpty,
      selectionType := some selectionType }

/-- Clearing pass of `setTreeViewMultiSelections`: every checkbox is
unchecked and cleared of `indeterminate`. -/
def clearAllCheckboxes (ps : List ParentNode) : List ParentNode :=
  ps.map (fun p =>
    { p with checked := false, indeterminate := false,
             children := p.children.map (fun c =>
               { c with checked := false, indeterminate := false }) })

/-- Checking the first parent checkbox with a matching `data-parent-id`
(`querySelector` semantics) and dispatching its `change` event, which runs
`handleParentCheckboxChange` on that parent's subtree. -/
def setParentChecked (hasActiveSearch : Bool) : List ParentNode → Str → List ParentNode
  | [], _ => []
  | p :: rest, pid =>
    if p.id == pid then
      handleParentCheckboxChange hasActiveSearch { p with checked := true } :: rest
    else p :: setParentChecked hasActiveSearch rest pid

/-- Checking the first child row with a matching `data-child-id` inside one
child list. -/
def setChildCheckedIn : List ChildNode → Str → Option (List ChildNode)
  | [], _ => none
  | c :: rest, cid =>
    if c.id == cid then some ({ c with checked := true } :: rest)
    else
      match setChildCheckedIn rest cid with
      | some rest' => some (c :: rest')
      | none => none

/-- Checking the first child checkbox with a matching `data-child-id`
container-wide and dispatching its `change` event, which runs
`handleChildCheckboxChange` for its parent. -/
def setChildChecked (hasActiveSearch : Bool) : List ParentNode → Str → List ParentNode
  | [], _ => []
  | p :: rest, cid =>
    match setChildCheckedIn p.children cid with
    | some cs => handleChildCheckboxChange hasActiveSearch { p with children := cs } :: rest
    | none => p :: setChildChecked hasActiveSearch rest cid

/-- `setTreeViewMultiSelections` from `customControl.js`: clear all
checkboxes, then check each supplied parent ID (propagating to its children),
then each supplied child ID (recomputing its parent's tri-state).  IDs with no
matching checkbox are skipped (`querySelector` returns nothing; a diagnostic
is logged). -/
def setTreeViewMultiSelections (st : Dropdown) (parentIds childIds : List Str) : Dropdown :=
  let cleared := clearAllCheckboxes st.parents
  let afterParents := parentIds.foldl (setParentChecked st.searchActive) cleared
  let afterChildren := childIds.foldl (setChildChecked st.searchActive) afterParents
  { st with parents := afterChildren }

/-- Selection of the first parent checkbox with a matching `data-parent-id`
(`querySelector` semantics) inside `setFlatMultiSelections`. -/
def setFlatParentChecked : List ParentNode → Str → List ParentNode
  | [], _ => []
  | p :: rest, pid =>
    if p.id == pid then { p with checked := true } :: rest
    else p :: setFlatParentChecked rest pid

/-- `setFlatMultiSelections` from `customControl.js`: clear the `checked` mark
of every parent checkbox, then check the first match of each supplied parent
ID (child IDs are ignored in flat mode). -/
def setFlatMultiSelectionsList (ps : List ParentNode) (parentIds : List Str) : List ParentNode :=
  parentIds.foldl setFlatParentChecked (ps.map (fun p => { p with checked := false }))

/-- `setFlatMultiSelections` wrapped on a `Dropdown`. -/
def setFlatMultiSelections (st : Dropdown) (parentIds : List Str) : Dropdown :=
  { st with parents := setFlatMultiSelectionsList st.parents parentIds }

/-- Clearing pass of `setSingleSelection`: the `ddl-selected` name is removed
from every `ddl-option` element. -/
def clearSelectedOptions (hasTreeView : Bool) (ps : List ParentNode) : List ParentNode :=
  ps.map (fun p =>
    { p with selected := if isSingleOption hasTreeView p then false else p.selected,
             children :=
               if hasTreeView then p.children.map (fun c => { c with selected := false })
               else p.children })

/-- Selecting the first parent label with matching `data-id` that is a
`ddl-option`. -/
def selectFirstParentOption (hasTreeView : Bool) : List ParentNode → Str → Option (List ParentNode)
  | [], _ => none
  | p :: rest, tid =>
    if p.id == tid && isSingleOption hasTreeView p then
      some ({ p with selected := true } :: rest)
    else
      match selectFirstParentOption hasTreeView rest tid with
      | some rest' => some (p :: rest')
      | none => none

/-- Selecting the first child row with matching `data-id` inside one child
list. -/
def selectChildIn : List ChildNode → Str → Option (List ChildNode)
  | [], _ => none
  | c :: rest, tid =>
    if c.id == tid then some ({ c with selected := true } :: rest)
    else
      match selectChildIn rest tid with
      | some rest' => some (c :: rest')
      | none => none

/-- Selecting the first child row with matching `data-id` container-wide. -/
def selectFirstChildOption : List ParentNode → Str → Option (List ParentNode)
  | [], _ => none
  | p :: rest, tid =>
    match selectChildIn p.children tid with
    | some cs => some ({ p with children := cs } :: rest)
    | none =>
      match selectFirstChildOption rest tid with
      | some rest' => some (p :: rest')
      | none => none

/-- `setSingleSelection` from `customControl.js`: a falsy target (none or
empty) returns immediately; otherwise all selections are cleared, then the
target is looked up among parent labels first, then among child rows; a miss
is only logged and leaves everything cleared. -/
def setSingleSelection (st : Dropdown) (targetId : Option Str) : Dropdown :=
  match targetId with
  | none => st
  | some tid =>
    if tid.isEmpty then st
    else
      let cleared := clearSelectedOptions st.hasTreeView st.parents
      match selectFirstParentOption st.hasTreeView cleared tid with
      | some ps' => { st with parents := ps' }
      | none =>
        match selectFirstChildOption cleared tid with
        | some ps' => { st with parents := ps' }
        | none => { st with parents := cleared }

/-- The JavaScript expression `parentIds[0] || childIds[0]`: the first parent
ID if present and truthy, else the first child ID (if any). -/
def jsFirstTruthy (parentIds childIds : List Str) : Option Str :=
  match parentIds.head? with
  | some h => if h.isEmpty then childIds.head? else some h
  | none => childIds.head?

/-- `setDDLData` from `customControl.js`: an unresolvable container logs a
diagnostic and returns `false`; otherwise the mode-specific writer is applied
and the call returns `true`. -/
def setDDLData (st? : Option Dropdown) (parentsSel childrenSel : List Str) :
    Bool × Option Dropdown :=
  match st? with
  | none => (false, none)
  | some st =>
    (true, some (
      if st.hasMultiSelect then
        if st.hasTreeView then setTreeViewMultiSelections st parentsSel childrenSel
        else setFlatMultiSelections st parentsSel
      else setSingleSelection st (jsFirstTruthy parentsSel childrenSel)))

/-- The parent-ID skeleton of a parent list: which parent and child IDs exist,
in order.  All selection writers preserve it. -/
def idSkeleton (ps : List ParentNode) : List (Str × List Str) :=
  ps.map (fun p => (p.id, p.children.map (fun c => c.id)))

/-- Whether some parent checkbox matches `data-parent-id = pid`. -/
def anyParentId (ps : List ParentNode) (pid : Str) : Bool :=
  ps.any (fun p => p.id == pid)

/-- Whether some child checkbox matches `data-child-id = cid`. -/
def anyChildId (ps : List ParentNode) (cid : Str) : Bool :=
  ps.any (fun p => p.children.any (fun c => c.id == cid))

/-- Concrete single-flat control for the C4 scenario: data
`[{id:1,name:"A"},{id:2,name:"B"}]`, no children, nothing selected. -/
def scenarioSingleFlat : Dropdown :=
  { hasMultiSelect := false, hasTreeView := false,
    parents := [{ id := "1".toList, name := "A".toList },
                { id := "2".toList, name := "B".toList }] }

/-- Concrete multi-tree control for the C8 witness. -/
def exampleTreeDropdown : Dropdown :=
  { hasMultiSelect := true, hasTreeView := true,
    parents := [{ id := "1".toList, name := "A".toList,
                  children := [{ id := "101".toList, name := "a".toList }] }] }

/-- Concrete single-flat control with an existing selection, for the C8
counterexample. -/
def exampleSingleSelected : Dropdown :=
  { hasMultiSelect := false, hasTreeView := false,
    parents := [{ id := "1".toList, name := "A".toList },
                { id := "2".toList, name := "B".toList, selected := true }] }

/-! ## Flat-mode selection writes and reachable flat states

In the flat (non-tree) multi-select mode the only operations that write parent
marks are: a user click on a parent checkbox (which flips `checked`; the
dispatched `handleParentCheckboxChange` finds no child checkboxes and writes
no marks), the injection `setFlatMultiSelections`, and the flat branch of
`toggleAllSelections`.  None of them ever sets `indeterminate`, so flat-mode
reachable states carry no indeterminate parents. -/

/-- A user click on the parent checkbox at position `i` in flat mode: the
checkbox's `checked` becomes `b`; no other mark is written. -/
def setCheckedAt : List ParentNode → Nat → Bool → List ParentNode
  | [], _, _ => []
  | p :: rest, 0, b => { p with checked := b } :: rest
  | p :: rest, i + 1, b => p :: setCheckedAt rest i b

/-- Mark states reachable in flat multi-select mode. -/
inductive FlatReachable : List ParentNode → Prop where
  | init (ps : List ParentNode)
      (h : ∀ p ∈ ps, p.checked = false ∧ p.indeterminate = false) : FlatReachable ps
  | click (ps : List ParentNode) (i : Nat) (b : Bool) (h : FlatReachable ps) :
      FlatReachable (setCheckedAt ps i b)
  | inject (ps : List ParentNode) (parentIds : List Str) (h : FlatReachable ps) :
      FlatReachable (setFlatMultiSelectionsList ps parentIds)
  | toggleAll (ps : List ParentNode) (shouldSelect respectSearch searchActive : Bool)
      (h : FlatReachable ps) :
      FlatReachable (toggleAllSelections shouldSelect respectSearch searchActive false ps)

/-- Concrete tree state for the C7 witness: an indeterminate (unchecked)
parent with one checked child. -/
def exampleClearParents : List ParentNode :=
  [{ indeterminate := true, children := [{ checked := true }] }]

/-- Concrete flat state for the C7 witness: one parent, checked by a user
click starting from the all-clear initial state. -/
def exampleFlatParents : List ParentNode := setCheckedAt [{ }] 0 true

/-- Concrete state for the C2 witness: an indeterminate parent whose only
checked child is hidden by the filter and whose visible child is unchecked. -/
def exampleSearchParent : ParentNode :=
  { indeterminate := true,
    children := [{ checked := true, visible := false },
                 { checked := false, visible := true }] }

/-- Concrete two-parent state for the C3 scenario: the filter hides parent 1
(and its child); parent 2 and its child are visible; nothing is checked. -/
def scenarioParents : List ParentNode :=
  [{ id := "1".toList, visible := false,
     children := [{ id := "101".toList, visible := false }] },
   { id := "2".toList, visible := true,
     children := [{ id := "201".toList, visible := true }] }]

end DDL

namespace DDL

/-! ## Claim C1: tri-state correctness with All scope -/

/-- Helper: the checked-children count is zero iff no child is checked. -/
theorem length_filter_checked_eq_zero (l : List ChildNode) :
    ((l.filter (fun c => c.checked)).length = 0 ↔ ∀ c ∈ l, c.checked = false) := by
  rw [List.length_eq_zero, List.filter_eq_nil_iff]
  simp

/-- Helper: the checked-children count is full iff every child is checked. -/
theorem length_filter_checked_eq_length (l : List ChildNode) :
    ((l.filter (fun c => c.checked)).length = l.length ↔ ∀ c ∈ l, c.checked = true) := by
  rw [List.filter_length_eq_length]

/-- Helper: unfolding equation of the no-search branch of
`handleChildCheckboxChange`. -/
theorem handleChild_noSearch_def (p : ParentNode) :
    handleChildCheckboxChange false p =
      (if (p.children.filter (fun c => c.checked)).length = 0 then
        { p with checked := false, indeterminate := false }
      else if (p.children.filter (fun c => c.checked)).length = p.children.length then
        { p with checked := true, indeterminate := false }
      else { p with checked := false, indeterminate := true }) := rfl

/-- Claim C1: in multi-select tree mode with no active search text, after the
children-to-parent propagation (`handleChildCheckboxChange`) runs for any
child of a parent `P` having at least one child, `P` is checked (and not
indeterminate) iff every child is checked, indeterminate iff at least one but
not all children are checked, and unchecked (not indeterminate) iff no child
is checked. -/
theorem tristate_all_scope_correct (p : ParentNode) (hne : p.children ≠ []) :
    ((handleChildCheckboxChange false p).checked = true ∧
      (handleChildCheckboxChange false p).indeterminate = false ↔
        ∀ c ∈ p.children, c.checked = true) ∧
    ((handleChildCheckboxChange false p).indeterminate = true ↔
        ((∃ c ∈ p.children, c.checked = true) ∧ ¬ ∀ c ∈ p.children, c.checked = true)) ∧
    ((handleChildCheckboxChange false p).checked = false ∧
      (handleChildCheckboxChange false p).indeterminate = false ↔
        ∀ c ∈ p.children, c.checked = false) := by
  by_cases h0 : (p.children.filter (fun c => c.checked)).length = 0
  · have hall : ∀ c ∈ p.children, c.checked = false :=
      (length_filter_checked_eq_zero p.children).mp h0
    have hnotall : ¬ ∀ c ∈ p.children, c.checked = true := by
      intro hforall
      obtain ⟨c, hc⟩ := List.exists_mem_of_ne_nil p.children hne
      have h1 := hforall c hc
      have h2 := hall c hc
      simp_all
    have hnoex : ¬ ∃ c ∈ p.children, c.checked = true := by
      rintro ⟨c, hc, hcc⟩
      have h2 := hall c hc
      simp_all
    rw [handleChild_noSearch_def, if_pos h0]
    exact ⟨iff_of_false (by simp) hnotall,
      iff_of_false (by simp) (fun hcon => hnoex hcon.1),
      iff_of_true (by simp) hall⟩
  · by_cases h1 : (p.children.filter (fun c => c.checked)).length = p.children.length
    · have hall : ∀ c ∈ p.children, c.checked = true :=
        (length_filter_checked_eq_length p.children).mp h1
      have hnotall0 : ¬ ∀ c ∈ p.children, c.checked = false := by
        intro hforall
        obtain ⟨c, hc⟩ := List.exists_mem_of_ne_nil p.children hne
        have h2 := hforall c hc
        have h3 := hall c hc
        simp_all
      rw [handleChild_noSearch_def, if_neg h0, if_pos h1]
      exact ⟨iff_of_true (by simp) hall,
        iff_of_false (by simp) (fun hcon => hcon.2 hall),
        iff_of_false (by simp) hnotall0⟩
    · have hnotall : ¬ ∀ c ∈ p.children, c.checked = true := by
        intro hforall
        exact h1 ((length_filter_checked_eq_length p.children).mpr hforall)
      have hnotzero : ¬ ∀ c ∈ p.children, c.checked = false := by
        intro hforall
        exact h0 ((length_filter_checked_eq_zero p.children).mpr hforall)
      have hex : ∃ c ∈ p.children, c.checked = true := by
        have hpos : 0 < (p.children.filter (fun c => c.checked)).length :=
          Nat.pos_of_ne_zero h0
        rw [← List.countP_eq_length_filter] at hpos
        simpa using List.countP_pos_iff.mp hpos
      rw [handleChild_noSearch_def, if_neg h0, if_neg h1]
      exact ⟨iff_of_false (by simp) hnotall,
        iff_of_true (by simp) ⟨hex, hnotall⟩,
        iff_of_false (by simp) hnotzero⟩

/-- Witness for C1 at a concrete two-child parent with exactly one child
checked: the parent comes out indeterminate. -/
theorem tristate_all_scope_correct_witness :
    ({ children := [{ checked := true }, { checked := false }] } : ParentNode).children ≠ [] ∧
    ((handleChildCheckboxChange false
        { children := [{ checked := true }, { checked := false }] }).indeterminate = true ↔
      ((∃ c ∈ ({ children := [{ checked := true }, { checked := false }] } :
            ParentNode).children, c.checked = true) ∧
        ¬ ∀ c ∈ ({ children := [{ checked := true }, { checked := false }]} :
            ParentNode).children, c.checked = true)) :=
  ⟨by decide,
    (tristate_all_scope_correct
      { children := [{ checked := true }, { checked := false }] } (by decide)).2.1⟩

/-! ## Claim C2: visibility preservation during search -/

/-- Helper: unfolding equation of the active-search branch of
`handleChildCheckboxChange`. -/
theorem handleChild_search_def (p : ParentNode) :
    handleChildCheckboxChange true p =
      (if 0 < (p.children.filter (fun c => c.visible)).length then
        (if ((p.children.filter (fun c => c.visible)).filter (fun c => c.checked)).length = 0 then
          (if p.children.any (fun c => c.checked) then p
           else { p with checked := false, indeterminate := false })
        else if ((p.children.filter (fun c => c.visible)).filter (fun c => c.checked)).length =
            (p.children.filter (fun c => c.visible)).length then
          { p with checked := true, indeterminate := false }
        else { p with checked := false, indeterminate := true })
      else p) := rfl

/-- Helper: unfolding equation of `recalcParentForSearch`. -/
theorem recalcParentForSearch_def (p : ParentNode) :
    recalcParentForSearch p =
      (if (p.children.filter (fun c => c.visible)).length = 0 then p
      else if ((p.children.filter (fun c => c.visible)).filter (fun c => c.checked)).length = 0 then
        (if (p.children.filter (fun c => c.checked)).length = 0 then
          { p with checked := false, indeterminate := false }
        else p)
      else if ((p.children.filter (fun c => c.visible)).filter (fun c => c.checked)).length =
          (p.children.filter (fun c => c.visible)).length then
        { p with checked := true, indeterminate := false }
      else { p with checked := false, indeterminate := true }) := rfl

/-- Claim C2: while a search filter is active, if no visible child of `P` is
checked but at least one hidden child of `P` is checked, then both
children-to-parent recomputations (`handleChildCheckboxChange` during search
and `recalculateParentStatesForSearch`) leave `P`, in particular its
checked/indeterminate mark, exactly as it was; it is never set to unchecked. -/
theorem search_visibility_preservation (p : ParentNode)
    (hvis : ∀ c ∈ p.children, c.visible = true → c.checked = false)
    (hhid : ∃ c ∈ p.children, c.visible = false ∧ c.checked = true) :
    handleChildCheckboxChange true p = p ∧ recalcParentForSearch p = p := by
  have hvc : ((p.children.filter (fun c => c.visible)).filter (fun c => c.checked)).length = 0 := by
    apply (length_filter_checked_eq_zero _).mpr
    intro c hc
    rw [List.mem_filter] at hc
    exact hvis c hc.1 hc.2
  obtain ⟨c0, hc0, hc0vis, hc0chk⟩ := hhid
  have hany : p.children.any (fun c => c.checked) = true :=
    List.any_eq_true.mpr ⟨c0, hc0, hc0chk⟩
  have hchk0 : ¬ (p.children.filter (fun c => c.checked)).length = 0 := by
    intro h
    have h2 := (length_filter_checked_eq_zero _).mp h c0 hc0
    simp_all
  constructor
  · rw [handleChild_search_def]
    by_cases hlen : 0 < (p.children.filter (fun c => c.visible)).length
    · rw [if_pos hlen, if_pos hvc, if_pos hany]
    · rw [if_neg hlen]
  · rw [recalcParentForSearch_def]
    by_cases hlen : (p.children.filter (fun c => c.visible)).length = 0
    · rw [if_pos hlen]
    · rw [if_neg hlen, if_pos hvc, if_neg hchk0]

/-- Witness for C2 at `exampleSearchParent`: both recomputations leave the
parent untouched. -/
theorem search_visibility_preservation_witness :
    (∀ c ∈ exampleSearchParent.children, c.visible = true → c.checked = false) ∧
    (handleChildCheckboxChange true exampleSearchParent = exampleSearchParent ∧
      recalcParentForSearch exampleSearchParent = exampleSearchParent) :=
  ⟨by decide, search_visibility_preservation exampleSearchParent (by decide) (by decide)⟩

/-! ## Claim C3: bulk toggle is scoped to visible nodes -/

/-- Helper: a pointwise property of `f` yields `Forall₂` between a list and
its image under `f`. -/
theorem forall2_of_map {α β : Type} {R : α → β → Prop} (f : α → β) :
    ∀ l : List α, (∀ a ∈ l, R a (f a)) → List.Forall₂ R l (l.map f) := by
  intro l
  induction l with
  | nil => intro _; exact List.Forall₂.nil
  | cons a t ih =>
    intro h
    exact List.Forall₂.cons (h a (by simp)) (ih (fun x hx => h x (by simp [hx])))

/-- Helper: `hiddenKept` is reflexive, pointwise on a list. -/
theorem forall2_hiddenKept_refl (l : List ChildNode) : List.Forall₂ hiddenKept l l :=
  List.forall₂_same.mpr (fun _ _ _ => rfl)

/-- Helper: `hiddenKept` composes along `Forall₂`. -/
theorem hiddenKept_trans : ∀ {l m n : List ChildNode},
    List.Forall₂ hiddenKept l m → List.Forall₂ hiddenKept m n →
      List.Forall₂ hiddenKept l n := by
  intro l m n h1
  induction h1 generalizing n with
  | nil =>
    intro h2
    cases h2
    exact List.Forall₂.nil
  | @cons a b l1 m1 hab _ ih =>
    intro h2
    cases h2 with
    | cons hbc h2t =>
      refine List.Forall₂.cons ?_ (ih h2t)
      intro hv
      have hba := hab hv
      have hbv : b.visible = false := by rw [hba, hv]
      rw [hbc hbv, hba]

/-- Helper: the children list produced by the child-checkbox pass is the
pointwise image of `childToggleFun`. -/
theorem toggleChildrenLoop_children (sel hs : Bool) :
    ∀ (todo : List ChildNode) (p : ParentNode) (done : List ChildNode),
      (toggleChildrenLoop sel hs p done todo).children =
        done ++ todo.map (childToggleFun sel hs) := by
  intro todo
  induction todo with
  | nil =>
    intro p done
    simp [toggleChildrenLoop]
  | cons c rest ih =>
    intro p done
    simp only [toggleChildrenLoop]
    by_cases hg : (hs && !c.visible) = true
    · rw [if_pos hg, ih]
      simp [childToggleFun, hg]
    · rw [if_neg hg]
      by_cases hnu : (if sel then !c.checked else (c.checked || c.indeterminate)) = true
      · rw [if_pos hnu, ih]
        simp [childToggleFun, hg, hnu]
      · rw [if_neg hnu, ih]
        simp [childToggleFun, hg, hnu]

/-- Helper: with an active search, the child-checkbox pass skips a fully
hidden child list and leaves the parent unchanged. -/
theorem toggleChildrenLoop_hidden (sel : Bool) :
    ∀ (todo : List ChildNode) (p : ParentNode) (done : List ChildNode),
      (∀ c ∈ todo, c.visible = false) →
      toggleChildrenLoop sel true p done todo = { p with children := done ++ todo } := by
  intro todo
  induction todo with
  | nil =>
    intro p done _
    simp [toggleChildrenLoop]
  | cons c rest ih =>
    intro p done h
    have hg : (true && !c.visible) = true := by simp [h c (by simp)]
    simp only [toggleChildrenLoop]
    rw [if_pos hg, ih _ _ (fun x hx => h x (by simp [hx]))]
    simp

/-- Helper: with an active search the parent-checkbox pass skips a hidden
parent. -/
theorem toggleParentStep_hidden (sel : Bool) (p : ParentNode) (hv : p.visible = false) :
    toggleParentStep sel true p = p := by
  simp only [toggleParentStep]
  rw [if_pos (by simp [hv])]

/-- Helper: the parent-checkbox pass never touches children hidden under an
active search. -/
theorem toggleParentStep_children (sel : Bool) (p : ParentNode) :
    List.Forall₂ hiddenKept p.children (toggleParentStep sel true p).children := by
  simp only [toggleParentStep]
  by_cases hg : (true && !p.visible) = true
  · rw [if_pos hg]
    exact forall2_hiddenKept_refl _
  · rw [if_neg hg]
    by_cases hnu : (if sel then !p.checked else (p.checked || p.indeterminate)) = true
    · rw [if_pos hnu]
      simp only [handleParentCheckboxChange]
      apply forall2_of_map
      intro c _ hcv
      simp [hcv]
    · rw [if_neg hnu]
      exact forall2_hiddenKept_refl _

/-- Claim C3: when `toggleAllSelections` runs with `respectSearch = true` and
a non-empty search query, nodes hidden by the filter keep their marks: in tree
view a hidden parent (whose subtree the filter hides entirely) is untouched
and hidden children of visible parents are untouched; in flat view hidden
parents are untouched.  In particular, on the two-parent scenario where the
filter hides parent 1, selecting all checks only parent 2 and its visible
child while parent 1 and its child remain unchecked. -/
theorem bulk_toggle_respects_search :
    (∀ (shouldSelect : Bool) (ps : List ParentNode),
      (∀ p ∈ ps, p.visible = false → ∀ c ∈ p.children, c.visible = false) →
      List.Forall₂ HiddenPreserved ps (toggleAllSelections shouldSelect true true true ps)) ∧
    (∀ (shouldSelect : Bool) (ps : List ParentNode),
      List.Forall₂ (fun p q : ParentNode => p.visible = false → q = p) ps
        (toggleAllSelections shouldSelect true true false ps)) ∧
    toggleAllSelections true true true true scenarioParents =
      [{ id := "1".toList, visible := false,
         children := [{ id := "101".toList, visible := false }] },
       { id := "2".toList, visible := true, checked := true,
         children := [{ id := "201".toList, visible := true, checked := true }] }] := by
  refine ⟨?_, ?_, by decide⟩
  · intro sel ps hinv
    rw [show toggleAllSelections sel true true true ps =
      (ps.map (toggleParentStep sel true)).map
        (fun p => toggleChildrenLoop sel true p [] p.children) from rfl]
    rw [List.map_map]
    apply forall2_of_map
    intro p hp
    refine ⟨?_, ?_⟩
    · intro hv
      have hch := hinv p hp hv
      simp only [Function.comp_apply]
      rw [toggleParentStep_hidden sel p hv]
      rw [toggleChildrenLoop_hidden sel p.children p [] hch]
      simp only [List.nil_append]
    · simp only [Function.comp_apply]
      have h1 := toggleParentStep_children sel p
      have h2 : List.Forall₂ hiddenKept (toggleParentStep sel true p).children
          ((toggleChildrenLoop sel true (toggleParentStep sel true p) []
            (toggleParentStep sel true p).children).children) := by
        rw [toggleChildrenLoop_children]
        simp only [List.nil_append]
        apply forall2_of_map
        intro c _ hcv
        simp [childToggleFun, hcv]
      exact hiddenKept_trans h1 h2
  · intro sel ps
    rw [show toggleAllSelections sel true true false ps =
      ps.map (toggleFlatStep sel true) from rfl]
    apply forall2_of_map
    intro p _ hv
    simp only [toggleFlatStep]
    rw [if_pos (by simp [hv])]

/-- Witness for C3: the frame part of the theorem applied to the concrete
two-parent scenario state. -/
theorem bulk_toggle_respects_search_witness :
    List.Forall₂ HiddenPreserved scenarioParents
      (toggleAllSelections true true true true scenarioParents) :=
  bulk_toggle_respects_search.1 true scenarioParents (by decide)

/-! ## Claim C7: clear-all clears indeterminate -/

/-- Helper: with no active search, the children-to-parent recomputation on an
all-unchecked child list clears the parent's mark. -/
theorem handleChild_clear (q : ParentNode) (h : ∀ c ∈ q.children, c.checked = false) :
    (handleChildCheckboxChange false q).checked = false ∧
      (handleChildCheckboxChange false q).indeterminate = false := by
  rw [handleChild_noSearch_def, if_pos ((length_filter_checked_eq_zero _).mpr h)]
  exact ⟨rfl, rfl⟩

/-- Helper: unfolding equation of the parent-checkbox clear step with no
active search. -/
theorem toggleParentStep_clear_def (p : ParentNode) :
    toggleParentStep false false p =
      (if (p.checked || p.indeterminate) = true then
        handleParentCheckboxChange false { p with checked := false, indeterminate := false }
      else p) := rfl

/-- Helper: the parent-checkbox clear pass always leaves the parent's own mark
clear. -/
theorem toggleParentStep_clear (p : ParentNode) :
    (toggleParentStep false false p).checked = false ∧
      (toggleParentStep false false p).indeterminate = false := by
  rw [toggleParentStep_clear_def]
  by_cases hnu : (p.checked || p.indeterminate) = true
  · rw [if_pos hnu]
    exact ⟨rfl, rfl⟩
  · rw [if_neg hnu]
    cases h1 : p.checked <;> cases h2 : p.indeterminate <;> simp_all

/-- Helper: the child-checkbox clear pass (no active search) clears every
child, and either leaves the parent mark clear or leaves it untouched with all
remaining children already clear. -/
theorem toggleChildrenLoop_clear :
    ∀ (todo : List ChildNode) (p : ParentNode) (done : List ChildNode),
      (∀ c ∈ done, c.checked = false ∧ c.indeterminate = false) →
      ((∀ c ∈ (toggleChildrenLoop false false p done todo).children,
          c.checked = false ∧ c.indeterminate = false) ∧
       (((toggleChildrenLoop false false p done todo).checked = false ∧
         (toggleChildrenLoop false false p done todo).indeterminate = false) ∨
        ((toggleChildrenLoop false false p done todo).checked = p.checked ∧
         (toggleChildrenLoop false false p done todo).indeterminate = p.indeterminate ∧
         ∀ c ∈ todo, c.checked = false ∧ c.indeterminate = false))) := by
  intro todo
  induction todo with
  | nil =>
    intro p done hd
    refine ⟨by simpa [toggleChildrenLoop] using hd, Or.inr ⟨rfl, rfl, by simp⟩⟩
  | cons c rest ih =>
    intro p done hd
    have hstep : toggleChildrenLoop false false p done (c :: rest) =
        (if (c.checked || c.indeterminate) = true then
          toggleChildrenLoop false false
            (handleChildCheckboxChange false
              { p with children :=
                  done ++ { c with checked := false, indeterminate := false } :: rest })
            (done ++ [{ c with checked := false, indeterminate := false }]) rest
        else toggleChildrenLoop false false p (done ++ [c]) rest) := rfl
    rw [hstep]
    by_cases hnu : (c.checked || c.indeterminate) = true
    · rw [if_pos hnu]
      have hd1 : ∀ x ∈ done ++ [({ c with checked := false, indeterminate := false } : ChildNode)],
          x.checked = false ∧ x.indeterminate = false := by
        intro x hx
        rcases List.mem_append.mp hx with hx1 | hx2
        · exact hd x hx1
        · rw [List.mem_singleton] at hx2
          subst hx2
          exact ⟨rfl, rfl⟩
      obtain ⟨hch, hmk⟩ := ih
        (handleChildCheckboxChange false
          { p with children := done ++ { c with checked := false, indeterminate := false } :: rest })
        (done ++ [{ c with checked := false, indeterminate := false }]) hd1
      refine ⟨hch, ?_⟩
      rcases hmk with hl | hr
      · exact Or.inl hl
      · left
        obtain ⟨hrc, hri, hrest⟩ := hr
        have hall : ∀ x ∈ (({ p with children :=
            done ++ { c with checked := false, indeterminate := false } :: rest } :
              ParentNode)).children, x.checked = false := by
          intro x hx
          rcases List.mem_append.mp hx with hx1 | hx2
          · exact (hd x hx1).1
          · rcases List.mem_cons.mp hx2 with hx3 | hx4
            · subst hx3; rfl
            · exact (hrest x hx4).1
        have hcl := handleChild_clear _ hall
        rw [hrc, hri]
        exact ⟨hcl.1, hcl.2⟩
    · rw [if_neg hnu]
      have hcc : c.checked = false ∧ c.indeterminate = false := by
        cases h1 : c.checked <;> cases h2 : c.indeterminate <;> simp_all
      have hd1 : ∀ x ∈ done ++ [c], x.checked = false ∧ x.indeterminate = false := by
        intro x hx
        rcases List.mem_append.mp hx with hx1 | hx2
        · exact hd x hx1
        · rw [List.mem_singleton] at hx2
          subst hx2
          exact hcc
      obtain ⟨hch, hmk⟩ := ih p (done ++ [c]) hd1
      refine ⟨hch, ?_⟩
      rcases hmk with hl | hr
      · exact Or.inl hl
      · right
        obtain ⟨hrc, hri, hrest⟩ := hr
        refine ⟨hrc, hri, ?_⟩
        intro x hx
        rcases List.mem_cons.mp hx with hx1 | hx2
        · subst hx1
          exact hcc
        · exact hrest x hx2

/-- Helper: a flat-mode user click never writes `indeterminate`. -/
theorem setCheckedAt_indet :
    ∀ (ps : List ParentNode) (i : Nat) (b : Bool),
      (∀ p ∈ ps, p.indeterminate = false) →
      ∀ p ∈ setCheckedAt ps i b, p.indeterminate = false := by
  intro ps
  induction ps with
  | nil =>
    intro i b h p hp
    simp [setCheckedAt] at hp
  | cons a rest ih =>
    intro i b h p hp
    cases i with
    | zero =>
      simp only [setCheckedAt] at hp
      rcases List.mem_cons.mp hp with h1 | h2
      · subst h1
        exact h a (by simp)
      · exact h p (by simp [h2])
    | succ n =>
      simp only [setCheckedAt] at hp
      rcases List.mem_cons.mp hp with h1 | h2
      · subst h1
        exact h p (by simp)
      · exact ih n b (fun x hx => h x (by simp [hx])) p h2

/-- Helper: checking one flat parent by ID never writes `indeterminate`. -/
theorem setFlatParentChecked_indet :
    ∀ (ps : List ParentNode) (pid : Str),
      (∀ p ∈ ps, p.indeterminate = false) →
      ∀ p ∈ setFlatParentChecked ps pid, p.indeterminate = false := by
  intro ps
  induction ps with
  | nil =>
    intro pid h p hp
    simp [setFlatParentChecked] at hp
  | cons a rest ih =>
    intro pid h p hp
    simp only [setFlatParentChecked] at hp
    by_cases hid : (a.id == pid) = true
    · rw [if_pos hid] at hp
      rcases List.mem_cons.mp hp with h1 | h2
      · subst h1
        exact h a (by simp)
      · exact h p (by simp [h2])
    · rw [if_neg hid] at hp
      rcases List.mem_cons.mp hp with h1 | h2
      · subst h1
        exact h p (by simp)
      · exact ih pid (fun x hx => h x (by simp [hx])) p h2

/-- Helper: the flat injection fold never writes `indeterminate`. -/
theorem foldl_setFlatParentChecked_indet :
    ∀ (pids : List Str) (ps : List ParentNode),
      (∀ p ∈ ps, p.indeterminate = false) →
      ∀ p ∈ pids.foldl setFlatParentChecked ps, p.indeterminate = false := by
  intro pids
  induction pids with
  | nil =>
    intro ps h
    simpa using h
  | cons pid rest ih =>
    intro ps h
    exact ih (setFlatParentChecked ps pid) (setFlatParentChecked_indet ps pid h)

/-- Helper: one flat bulk-toggle step never introduces `indeterminate`. -/
theorem toggleFlatStep_indet (sel hs : Bool) (x : ParentNode) (h : x.indeterminate = false) :
    (toggleFlatStep sel hs x).indeterminate = false := by
  simp only [toggleFlatStep]
  by_cases hg : (hs && !x.visible) = true
  · rw [if_pos hg]
    exact h
  · rw [if_neg hg]
    by_cases hnu : (if sel then !x.checked else x.checked) = true
    · rw [if_pos hnu]
      simp [h]
    · rw [if_neg hnu]
      exact h

/-- Helper: flat-mode reachable states carry no indeterminate parent; no flat
operation ever writes `indeterminate`. -/
theorem flatReachable_indet {ps : List ParentNode} (h : FlatReachable ps) :
    ∀ p ∈ ps, p.indeterminate = false := by
  induction h with
  | init ps h =>
    exact fun p hp => (h p hp).2
  | click ps i b h ih =>
    exact setCheckedAt_indet ps i b ih
  | inject ps pids h ih =>
    apply foldl_setFlatParentChecked_indet
    intro p hp
    rcases List.mem_map.mp hp with ⟨x, hx, rfl⟩
    exact ih x hx
  | toggleAll ps sel rs sa h ih =>
    intro p hp
    rw [show toggleAllSelections sel rs sa false ps =
      ps.map (toggleFlatStep sel (rs && sa)) from rfl] at hp
    rcases List.mem_map.mp hp with ⟨x, hx, rfl⟩
    exact toggleFlatStep_indet _ _ x (ih x hx)

/-- Helper: unfolding equation of the flat clear step with no active search. -/
theorem toggleFlatStep_clear_def (x : ParentNode) :
    toggleFlatStep false false x =
      (if x.checked = true then { x with checked := false, indeterminate := false } else x) := rfl

/-- Claim C7: after `toggleAllSelections(containerId, false)` with no active
search filter, every checkbox is unchecked and none remains indeterminate: in
tree view this holds for every mark state (parents and children, including
indeterminate-but-unchecked parents), and in flat view for every reachable
mark state (no flat-mode operation ever sets `indeterminate`). -/
theorem clear_all_clears_indeterminate :
    (∀ ps : List ParentNode,
      ∀ q ∈ toggleAllSelections false true false true ps,
        q.checked = false ∧ q.indeterminate = false ∧
          ∀ c ∈ q.children, c.checked = false ∧ c.indeterminate = false) ∧
    (∀ ps : List ParentNode, FlatReachable ps →
      ∀ q ∈ toggleAllSelections false true false false ps,
        q.checked = false ∧ q.indeterminate = false) := by
  constructor
  · intro ps q hq
    rw [show toggleAllSelections false true false true ps =
      (ps.map (toggleParentStep false false)).map
        (fun p => toggleChildrenLoop false false p [] p.children) from rfl] at hq
    rcases List.mem_map.mp hq with ⟨p1, hp1, rfl⟩
    rcases List.mem_map.mp hp1 with ⟨p0, hp0, rfl⟩
    obtain ⟨hch, hmk⟩ := toggleChildrenLoop_clear
      (toggleParentStep false false p0).children (toggleParentStep false false p0) [] (by simp)
    rcases hmk with hl | hr
    · exact ⟨hl.1, hl.2, hch⟩
    · obtain ⟨hrc, hri, _⟩ := hr
      rw [hrc, hri]
      obtain ⟨h1, h2⟩ := toggleParentStep_clear p0
      exact ⟨h1, h2, hch⟩
  · intro ps hreach q hq
    rw [show toggleAllSelections false true false false ps =
      ps.map (toggleFlatStep false false) from rfl] at hq
    rcases List.mem_map.mp hq with ⟨x, hx, rfl⟩
    have hind := flatReachable_indet hreach x hx
    rw [toggleFlatStep_clear_def]
    by_cases hc : x.checked = true
    · rw [if_pos hc]
      exact ⟨rfl, rfl⟩
    · rw [if_neg hc]
      exact ⟨by simpa using hc, hind⟩

/-- Witness for C7: the theorem applied to a concrete tree state with an
indeterminate-but-unchecked parent over a checked child, and to a concrete
reachable flat state with one checked parent. -/
theorem clear_all_clears_indeterminate_witness :
    (({ children := [{ }] } : ParentNode).checked = false ∧
      ({ children := [{ }] } : ParentNode).indeterminate = false ∧
      ∀ c ∈ ({ children := [{ }] } : ParentNode).children,
        c.checked = false ∧ c.indeterminate = false) ∧
    (({ } : ParentNode).checked = false ∧ ({ } : ParentNode).indeterminate = false) :=
  ⟨clear_all_clears_indeterminate.1 exampleClearParents _ (by decide),
   clear_all_clears_indeterminate.2 exampleFlatParents
     (FlatReachable.click [{ }] 0 true (FlatReachable.init [{ }] (by decide))) _ (by decide)⟩

/-! ## Claim C5: composite ID derivation

The claim states the three-part form for every supplied `childId`, but
`generateId` tests `childId` by JavaScript truthiness, so a supplied but empty
`childId` yields the two-part parent form. -/

/-- Counterexample to C5 as stated: with a supplied empty-string `childId`,
`generateId` returns the two-part parent form, not
`containerId + "-" + parentId + "-" + childId`. -/
theorem composite_id_derivation_counterexample :
    generateId "c".toList "p".toList (some []) = "c-p".toList ∧
      "c-p".toList ≠ "c".toList ++ '-' :: "p".toList ++ '-' :: ([] : Str) := by
  constructor
  · decide
  · decide

/-- Claim C5 (amended): `generateId` returns
`containerId + "-" + parentId + "-" + childId` whenever the supplied `childId`
is truthy (non-empty), and `containerId + "-" + parentId` when `childId` is
omitted or empty. -/
theorem composite_id_derivation_amended (containerId parentId childId : Str) :
    generateId containerId parentId none = containerId ++ '-' :: parentId ∧
    (childId ≠ [] →
      generateId containerId parentId (some childId) =
        containerId ++ '-' :: parentId ++ '-' :: childId) ∧
    generateId containerId parentId (some []) = containerId ++ '-' :: parentId := by
  refine ⟨rfl, ?_, rfl⟩
  intro h
  cases childId with
  | nil => exact absurd rfl h
  | cons a t => rfl

/-- Witness for the amended C5 at a concrete non-empty child ID. -/
theorem composite_id_derivation_amended_witness :
    generateId "c".toList "1".toList (some "101".toList) =
      "c".toList ++ '-' :: "1".toList ++ '-' :: "101".toList :=
  (composite_id_derivation_amended "c".toList "1".toList "101".toList).2.1 (by decide)

/-! ## Claim C6: duplicate-ID validation -/

/-- Claim C6: `validateId` returns `false` exactly when the composite ID was
already generated in the current render pass, leaves the seen set unchanged in
that case (so every subsequent duplicate call also returns `false`), records
the ID and returns `true` otherwise; and the seen set is cleared at the start
of each full render, so the ID trace of `renderOptions` is independent of any
previously accumulated state. -/
theorem duplicate_id_validation :
    (∀ (usedIds : List Str) (generatedId : Str),
      ((validateId usedIds generatedId).1 = false ↔ generatedId ∈ usedIds) ∧
      (generatedId ∈ usedIds →
        (validateId usedIds generatedId).2 = usedIds ∧
        (validateId (validateId usedIds generatedId).2 generatedId).1 = false) ∧
      (generatedId ∉ usedIds →
        validateId usedIds generatedId = (true, generatedId :: usedIds))) ∧
    (∀ (containerId : Str) (treeView : Bool) (data : List (Str × List Str))
        (usedIds : List Str),
      renderOptionsIds containerId treeView data usedIds =
        renderOptionsIds containerId treeView data []) := by
  constructor
  · intro usedIds generatedId
    by_cases h : generatedId ∈ usedIds
    · refine ⟨by simp [validateId, h], fun _ => ⟨by simp [validateId, h], ?_⟩, fun hn => absurd h hn⟩
      simp [validateId, h]
    · exact ⟨by simp [validateId, h], fun hmem => absurd hmem h, fun _ => by simp [validateId, h]⟩
  · intro containerId treeView data usedIds
    rfl

/-- Witness for C6: a repeated composite ID is rejected while the set stays
unchanged, and a fresh ID is recorded. -/
theorem duplicate_id_validation_witness :
    ((validateId ["x-1".toList] "x-1".toList).2 = ["x-1".toList] ∧
      (validateId (validateId ["x-1".toList] "x-1".toList).2 "x-1".toList).1 = false) ∧
    validateId [] "x-1".toList = (true, ["x-1".toList]) :=
  ⟨(duplicate_id_validation.1 ["x-1".toList] "x-1".toList).2.1 (by decide),
   (duplicate_id_validation.1 [] "x-1".toList).2.2 (by decide)⟩

/-! ## Claim C10: container-ID round trip

The round trip fails under the claim's stated preconditions alone: `replace`
removes the FIRST occurrence of `-checkbox`, so a `parentId` (or `childId`)
that starts with `checkbox` makes an earlier occurrence of the pattern and the
extracted first segment is wrong.  The amended claim additionally requires
that neither `parentId` nor `childId` starts with `checkbox`. -/

/-- Helper: a list is a Boolean prefix of itself extended by anything. -/
theorem isPrefixOf_self_append (x y : Str) : x.isPrefixOf (x ++ y) = true := by
  induction x with
  | nil => simp
  | cons a t ih => simp [List.isPrefixOf_cons₂, ih]

/-- Helper: removing the first occurrence of a leading pattern keeps the
tail. -/
theorem replaceFirst_self_append (pat r : Str) (hne : pat ≠ []) :
    replaceFirst (pat ++ r) pat = r := by
  cases pat with
  | nil => exact absurd rfl hne
  | cons a t =>
    show replaceFirst (a :: (t ++ r)) (a :: t) = r
    simp only [replaceFirst]
    rw [if_pos (show (a :: t).isPrefixOf (a :: (t ++ r)) = true from
      isPrefixOf_self_append (a :: t) r)]
    show (a :: (t ++ r)).drop (a :: t).length = r
    simp [List.drop_left]

/-- Helper: a non-empty pattern removed from itself leaves nothing. -/
theorem replaceFirst_self (pat : Str) (h : pat ≠ []) : replaceFirst pat pat = [] := by
  have h2 := replaceFirst_self_append pat [] h
  simpa using h2

/-- Helper: first-occurrence removal of a dash-led pattern passes over a
dash-free prefix. -/
theorem replaceFirst_append_no_dash (z s : Str) :
    ∀ x : Str, '-' ∉ x →
      replaceFirst (x ++ s) ('-' :: z) = x ++ replaceFirst s ('-' :: z) := by
  intro x
  induction x with
  | nil =>
    intro _
    simp
  | cons a t ih =>
    intro hx
    have ha : ¬ (a = '-') := fun h => hx (by simp [h])
    have hpre : (('-' :: z).isPrefixOf (a :: (t ++ s))) = false := by
      rw [List.isPrefixOf_cons₂]
      have hne : (('-' : Char) == a) = false := by
        rw [beq_eq_false_iff_ne]
        exact fun h => ha h.symm
      simp [hne]
    show replaceFirst (a :: (t ++ s)) ('-' :: z) = a :: (t ++ replaceFirst s ('-' :: z))
    simp only [replaceFirst]
    rw [if_neg (by simp [hpre]), ih (fun h => hx (by simp [h]))]

/-- Helper: first-occurrence removal steps over a dash when the rest of the
pattern does not continue there. -/
theorem replaceFirst_dash_step (rest z : Str) (h : ¬ (z <+: rest)) :
    replaceFirst ('-' :: rest) ('-' :: z) = '-' :: replaceFirst rest ('-' :: z) := by
  have h2 : (z.isPrefixOf rest) = false := by
    cases hzb : z.isPrefixOf rest
    · rfl
    · exact absurd (List.isPrefixOf_iff_prefix.mp hzb) h
  have hpre : (('-' :: z).isPrefixOf ('-' :: rest)) = false := by
    rw [List.isPrefixOf_cons₂]
    simp [h2]
  simp only [replaceFirst]
  rw [if_neg (by simp [hpre])]

/-- Helper: `checkbox` cannot be a prefix of `p ++ "-" ++ r` unless it is
already a prefix of `p`, because `checkbox` contains no dash. -/
theorem checkbox_not_prefix_append (p r : Str) (hp : ¬ ("checkbox".toList <+: p)) :
    ¬ ("checkbox".toList <+: (p ++ '-' :: r)) := by
  intro h
  rcases Nat.lt_or_ge p.length 8 with hlt | hge
  · have htake := List.prefix_iff_eq_take.mp h
    have hlen : ("checkbox".toList : Str).length = 8 := by decide
    rw [hlen, List.take_append_eq_append_take,
      List.take_of_length_le (Nat.le_of_lt hlt)] at htake
    obtain ⟨k, hk⟩ : ∃ k, 8 - p.length = k + 1 := ⟨8 - p.length - 1, by omega⟩
    rw [hk, List.take_succ_cons] at htake
    have hmem : ('-' : Char) ∈ ("checkbox".toList : Str) := by
      rw [htake]
      exact List.mem_append.mpr (Or.inr (by simp))
    revert hmem
    decide
  · apply hp
    have htake := List.prefix_iff_eq_take.mp h
    have hlen : ("checkbox".toList : Str).length = 8 := by decide
    rw [hlen, List.take_append_eq_append_take,
      Nat.sub_eq_zero_of_le hge, List.take_zero, List.append_nil] at htake
    rw [htake]
    exact List.take_prefix 8 p

/-- Helper: stripping `-checkbox` from a generated parent-checkbox ID. -/
theorem replaceFirst_parent_id (c p : Str) (hcd : '-' ∉ c) (hpd : '-' ∉ p)
    (hpcb : ¬ ("checkbox".toList <+: p)) :
    replaceFirst (c ++ '-' :: (p ++ '-' :: "checkbox".toList)) ('-' :: "checkbox".toList) =
      c ++ '-' :: p := by
  rw [replaceFirst_append_no_dash _ _ c hcd]
  rw [replaceFirst_dash_step _ _ (checkbox_not_prefix_append p _ hpcb)]
  rw [replaceFirst_append_no_dash _ _ p hpd]
  rw [replaceFirst_self _ (by decide)]
  simp

/-- Helper: stripping `-checkbox` from a generated child-checkbox ID. -/
theorem replaceFirst_child_id (c p ch : Str) (hcd : '-' ∉ c) (hpd : '-' ∉ p)
    (hchd : '-' ∉ ch) (hpcb : ¬ ("checkbox".toList <+: p))
    (hchcb : ¬ ("checkbox".toList <+: ch)) :
    replaceFirst (c ++ '-' :: (p ++ '-' :: (ch ++ '-' :: "checkbox".toList)))
        ('-' :: "checkbox".toList) =
      c ++ '-' :: (p ++ '-' :: ch) := by
  rw [replaceFirst_append_no_dash _ _ c hcd]
  rw [replaceFirst_dash_step _ _ (checkbox_not_prefix_append p _ hpcb)]
  rw [replaceFirst_append_no_dash _ _ p hpd]
  rw [replaceFirst_dash_step _ _ (checkbox_not_prefix_append ch _ hchcb)]
  rw [replaceFirst_append_no_dash _ _ ch hchd]
  rw [replaceFirst_self _ (by decide)]
  simp

/-- Helper: splitting a dash-free string yields one segment. -/
theorem splitOnChar_no_sep : ∀ x : Str, '-' ∉ x → splitOnChar '-' x = [x] := by
  intro x
  induction x with
  | nil =>
    intro _
    rfl
  | cons a t ih =>
    intro hx
    have ha : ¬ (a = '-') := fun h => hx (by simp [h])
    simp only [splitOnChar]
    rw [if_neg ha, ih (fun h => hx (by simp [h]))]

/-- Helper: splitting peels off a dash-free first segment. -/
theorem splitOnChar_append_dash : ∀ (x t : Str), '-' ∉ x →
    splitOnChar '-' (x ++ '-' :: t) = x :: splitOnChar '-' t := by
  intro x
  induction x with
  | nil =>
    intro t _
    show splitOnChar '-' ('-' :: t) = [] :: splitOnChar '-' t
    simp [splitOnChar]
  | cons a s ih =>
    intro t hx
    have ha : ¬ (a = '-') := fun h => hx (by simp [h])
    show splitOnChar '-' (a :: (s ++ '-' :: t)) = (a :: s) :: splitOnChar '-' t
    simp only [splitOnChar]
    rw [if_neg ha, ih t (fun h => hx (by simp [h]))]

/-- Helper: `endsWith` holds for an appended suffix. -/
theorem strEndsWith_append (w pat : Str) : strEndsWith (w ++ pat) pat = true := by
  simp only [strEndsWith, List.isSuffixOf]
  rw [List.reverse_append]
  exact isPrefixOf_self_append pat.reverse w.reverse

/-- Helper: full extraction of the container ID from a generated
parent-checkbox element ID. -/
theorem extract_two_parts (c p : Str) (hcd : '-' ∉ c) (hpd : '-' ∉ p)
    (hpcb : ¬ ("checkbox".toList <+: p)) :
    extractContainerIdFromElement (c ++ '-' :: (p ++ '-' :: "checkbox".toList)) = some c := by
  have hsfx : checkboxSuffix = '-' :: "checkbox".toList := rfl
  have hne : c ++ '-' :: (p ++ '-' :: "checkbox".toList) ≠ [] := by simp
  have hsplit : c ++ '-' :: (p ++ '-' :: "checkbox".toList) =
      (c ++ '-' :: p) ++ checkboxSuffix := by
    rw [hsfx]
    simp
  have hends : strEndsWith (c ++ '-' :: (p ++ '-' :: "checkbox".toList)) checkboxSuffix = true := by
    rw [hsplit]
    exact strEndsWith_append _ _
  simp only [extractContainerIdFromElement]
  rw [if_neg hne, if_pos hends, hsfx]
  rw [replaceFirst_parent_id c p hcd hpd hpcb]
  rw [splitOnChar_append_dash c p hcd, splitOnChar_no_sep p hpd]
  simp

/-- Helper: full extraction of the container ID from a generated
child-checkbox element ID. -/
theorem extract_three_parts (c p ch : Str) (hcd : '-' ∉ c) (hpd : '-' ∉ p)
    (hchd : '-' ∉ ch) (hpcb : ¬ ("checkbox".toList <+: p))
    (hchcb : ¬ ("checkbox".toList <+: ch)) :
    extractContainerIdFromElement (c ++ '-' :: (p ++ '-' :: (ch ++ '-' :: "checkbox".toList))) =
      some c := by
  have hsfx : checkboxSuffix = '-' :: "checkbox".toList := rfl
  have hne : c ++ '-' :: (p ++ '-' :: (ch ++ '-' :: "checkbox".toList)) ≠ [] := by simp
  have hsplit : c ++ '-' :: (p ++ '-' :: (ch ++ '-' :: "checkbox".toList)) =
      (c ++ '-' :: (p ++ '-' :: ch)) ++ checkboxSuffix := by
    rw [hsfx]
    simp
  have hends : strEndsWith (c ++ '-' :: (p ++ '-' :: (ch ++ '-' :: "checkbox".toList)))
      checkboxSuffix = true := by
    rw [hsplit]
    exact strEndsWith_append _ _
  simp only [extractContainerIdFromElement]
  rw [if_neg hne, if_pos hends, hsfx]
  rw [replaceFirst_child_id c p ch hcd hpd hchd hpcb hchcb]
  rw [splitOnChar_append_dash c _ hcd, splitOnChar_append_dash p ch hpd,
    splitOnChar_no_sep ch hchd]
  simp

/-- Counterexample to C10 as stated: `containerId = "c"` and
`parentId = "checkboxZ"` satisfy the claim's preconditions (non-empty, no
dash), yet extraction returns `"cZ"`, not `"c"`, because `replace` removes the
FIRST occurrence of `-checkbox`, which here sits between the container and the
parent segment. -/
theorem container_id_roundtrip_counterexample :
    ("c".toList ≠ [] ∧ "checkboxZ".toList ≠ [] ∧
      ('-' : Char) ∉ "c".toList ∧ ('-' : Char) ∉ "checkboxZ".toList) ∧
    extractContainerIdFromElement
        (generateId "c".toList "checkboxZ".toList none ++ checkboxSuffix) =
      some "cZ".toList ∧
    "cZ".toList ≠ "c".toList := by
  refine ⟨by decide, by decide, by decide⟩

/-- Claim C10 (amended): for non-empty dash-free `containerId`, `parentId`,
`childId` such that neither `parentId` nor `childId` starts with `checkbox`,
extraction from `generateId(...) + "-checkbox"` returns exactly the original
`containerId`, in both the parent (2-segment) and child (3-segment) forms. -/
theorem container_id_roundtrip_amended (c p ch : Str)
    (_hc0 : c ≠ []) (hcd : '-' ∉ c)
    (_hp0 : p ≠ []) (hpd : '-' ∉ p) (hpcb : ¬ ("checkbox".toList <+: p))
    (hch0 : ch ≠ []) (hchd : '-' ∉ ch) (hchcb : ¬ ("checkbox".toList <+: ch)) :
    extractContainerIdFromElement (generateId c p none ++ checkboxSuffix) = some c ∧
    extractContainerIdFromElement (generateId c p (some ch) ++ checkboxSuffix) = some c := by
  constructor
  · have hid : generateId c p none ++ checkboxSuffix =
        c ++ '-' :: (p ++ '-' :: "checkbox".toList) := by
      show (c ++ '-' :: p) ++ checkboxSuffix = _
      rw [show checkboxSuffix = '-' :: "checkbox".toList from rfl]
      simp
    rw [hid]
    exact extract_two_parts c p hcd hpd hpcb
  · have hid : generateId c p (some ch) ++ checkboxSuffix =
        c ++ '-' :: (p ++ '-' :: (ch ++ '-' :: "checkbox".toList)) := by
      have hform : generateId c p (some ch) = c ++ '-' :: p ++ '-' :: ch := by
        cases ch with
        | nil => exact absurd rfl hch0
        | cons a t => rfl
      rw [hform, show checkboxSuffix = '-' :: "checkbox".toList from rfl]
      simp
    rw [hid]
    exact extract_three_parts c p ch hcd hpd hchd hpcb hchcb

/-- Witness for the amended C10 at concrete IDs. -/
theorem container_id_roundtrip_amended_witness :
    extractContainerIdFromElement
        (generateId "DDLc".toList "1".toList none ++ checkboxSuffix) = some "DDLc".toList ∧
    extractContainerIdFromElement
        (generateId "DDLc".toList "1".toList (some "101".toList) ++ checkboxSuffix) =
      some "DDLc".toList :=
  container_id_roundtrip_amended "DDLc".toList "1".toList "101".toList
    (by decide) (by decide) (by decide) (by decide) (by decide)
    (by decide) (by decide) (by decide)

/-! ## Claim C4: scenario A extraction shape -/

/-- Claim C4: on the single-flat control built from
`[{id:1,name:"A"},{id:2,name:"B"}]`, after selecting the item with id `2` the
selection-read API returns the single-flat result whose `selected` list holds
exactly the one entry with id `2` and name `B` (the source names the fields
`selectionType`/`selected` for the spec's `mode`/`items`). -/
theorem single_flat_extraction_scenario :
    getDDLData (some (setSingleSelection scenarioSingleFlat (some "2".toList))) =
      { selected := [SelectedEntry.singleParent "2".toList "B".toList],
        hasData := true,
        selectionType := some "single-flat".toList } := by
  decide

/-! ## Claim C8: setDDLData error handling -/

/-- Helper: `handleChildCheckboxChange` never rewrites the child list. -/
theorem handleChild_children (hs : Bool) (q : ParentNode) :
    (handleChildCheckboxChange hs q).children = q.children := by
  simp only [handleChildCheckboxChange]
  repeat' split
  all_goals rfl

/-- Helper: `handleChildCheckboxChange` never rewrites the parent's ID. -/
theorem handleChild_id (hs : Bool) (q : ParentNode) :
    (handleChildCheckboxChange hs q).id = q.id := by
  simp only [handleChildCheckboxChange]
  repeat' split
  all_goals rfl

/-- Helper: `idSkeleton` unfolds over a cons cell. -/
theorem idSkeleton_cons (p : ParentNode) (rest : List ParentNode) :
    idSkeleton (p :: rest) =
      (p.id, p.children.map (fun c => c.id)) :: idSkeleton rest := rfl

/-- Helper: clearing every checkbox preserves the ID skeleton. -/
theorem idSkeleton_clearAll (ps : List ParentNode) :
    idSkeleton (clearAllCheckboxes ps) = idSkeleton ps := by
  simp only [idSkeleton, clearAllCheckboxes, List.map_map]
  apply List.map_congr_left
  intro p _
  simp [List.map_map, Function.comp]

/-- Helper: clearing the flat checkboxes preserves the ID skeleton. -/
theorem idSkeleton_clearFlat (ps : List ParentNode) :
    idSkeleton (ps.map (fun p => { p with checked := false })) = idSkeleton ps := by
  simp only [idSkeleton, List.map_map]
  apply List.map_congr_left
  intro p _
  simp [Function.comp]

/-- Helper: checking one parent by ID preserves the ID skeleton. -/
theorem idSkeleton_setParentChecked (hs : Bool) :
    ∀ (ps : List ParentNode) (pid : Str),
      idSkeleton (setParentChecked hs ps pid) = idSkeleton ps := by
  intro ps
  induction ps with
  | nil =>
    intro pid
    rfl
  | cons p rest ih =>
    intro pid
    simp only [setParentChecked]
    by_cases hid : (p.id == pid) = true
    · rw [if_pos hid, idSkeleton_cons, idSkeleton_cons]
      simp only [handleParentCheckboxChange, List.map_map]
      refine congrArg (fun x => x :: idSkeleton rest) ?_
      refine congrArg (fun x => (p.id, x)) ?_
      apply List.map_congr_left
      intro a _
      simp only [Function.comp_apply]
      split
      · rfl
      · rfl
    · rw [if_neg hid, idSkeleton_cons, idSkeleton_cons, ih pid]

/-- Helper: checking one flat parent by ID preserves the ID skeleton. -/
theorem idSkeleton_setFlatParentChecked :
    ∀ (ps : List ParentNode) (pid : Str),
      idSkeleton (setFlatParentChecked ps pid) = idSkeleton ps := by
  intro ps
  induction ps with
  | nil =>
    intro pid
    rfl
  | cons p rest ih =>
    intro pid
    simp only [setFlatParentChecked]
    by_cases hid : (p.id == pid) = true
    · rw [if_pos hid, idSkeleton_cons, idSkeleton_cons]
    · rw [if_neg hid, idSkeleton_cons, idSkeleton_cons, ih pid]

/-- Helper: checking one child row preserves the child-ID list. -/
theorem setChildCheckedIn_ids :
    ∀ (cs : List ChildNode) (cid : Str) (cs2 : List ChildNode),
      setChildCheckedIn cs cid = some cs2 →
      cs2.map (fun c => c.id) = cs.map (fun c => c.id) := by
  intro cs
  induction cs with
  | nil =>
    intro cid cs2 h
    simp [setChildCheckedIn] at h
  | cons c rest ih =>
    intro cid cs2 h
    simp only [setChildCheckedIn] at h
    by_cases hid : (c.id == cid) = true
    · rw [if_pos hid] at h
      have h2 := Option.some.inj h
      subst h2
      simp
    · rw [if_neg hid] at h
      cases hrec : setChildCheckedIn rest cid with
      | none =>
        rw [hrec] at h
        simp at h
      | some rest2 =>
        rw [hrec] at h
        have h2 := Option.some.inj h
        subst h2
        simp [ih cid rest2 hrec]

/-- Helper: checking one child by ID preserves the ID skeleton. -/
theorem idSkeleton_setChildChecked (hs : Bool) :
    ∀ (ps : List ParentNode) (cid : Str),
      idSkeleton (setChildChecked hs ps cid) = idSkeleton ps := by
  intro ps
  induction ps with
  | nil =>
    intro cid
    rfl
  | cons p rest ih =>
    intro cid
    simp only [setChildChecked]
    cases hrec : setChildCheckedIn p.children cid with
    | some cs =>
      rw [idSkeleton_cons, idSkeleton_cons]
      have hch := handleChild_children hs { p with children := cs }
      have hid := handleChild_id hs { p with children := cs }
      rw [hid, hch]
      simp [setChildCheckedIn_ids p.children cid cs hrec]
    | none =>
      rw [idSkeleton_cons, idSkeleton_cons, ih cid]

/-- Helper: a parent ID with no matching checkbox makes `setParentChecked` a
no-op. -/
theorem setParentChecked_not_found (hs : Bool) :
    ∀ (ps : List ParentNode) (pid : Str), anyParentId ps pid = false →
      setParentChecked hs ps pid = ps := by
  intro ps
  induction ps with
  | nil =>
    intro pid _
    rfl
  | cons p rest ih =>
    intro pid h
    simp only [anyParentId, List.any_cons, Bool.or_eq_false_iff] at h
    simp only [setParentChecked]
    rw [if_neg (by simp [h.1]), ih pid h.2]

/-- Helper: a flat parent ID with no matching checkbox makes
`setFlatParentChecked` a no-op. -/
theorem setFlatParentChecked_not_found :
    ∀ (ps : List ParentNode) (pid : Str), anyParentId ps pid = false →
      setFlatParentChecked ps pid = ps := by
  intro ps
  induction ps with
  | nil =>
    intro pid _
    rfl
  | cons p rest ih =>
    intro pid h
    simp only [anyParentId, List.any_cons, Bool.or_eq_false_iff] at h
    simp only [setFlatParentChecked]
    rw [if_neg (by simp [h.1]), ih pid h.2]

/-- Helper: a child ID absent from one child list is not found there. -/
theorem setChildCheckedIn_not_found :
    ∀ (cs : List ChildNode) (cid : Str),
      (cs.any (fun c => c.id == cid)) = false → setChildCheckedIn cs cid = none := by
  intro cs
  induction cs with
  | nil =>
    intro cid _
    rfl
  | cons c rest ih =>
    intro cid h
    simp only [List.any_cons, Bool.or_eq_false_iff] at h
    simp only [setChildCheckedIn]
    rw [if_neg (by simp [h.1]), ih cid h.2]

/-- Helper: a child ID with no matching checkbox makes `setChildChecked` a
no-op. -/
theorem setChildChecked_not_found (hs : Bool) :
    ∀ (ps : List ParentNode) (cid : Str), anyChildId ps cid = false →
      setChildChecked hs ps cid = ps := by
  intro ps
  induction ps with
  | nil =>
    intro cid _
    rfl
  | cons p rest ih =>
    intro cid h
    simp only [anyChildId, List.any_cons, Bool.or_eq_false_iff] at h
    simp only [setChildChecked]
    rw [setChildCheckedIn_not_found p.children cid h.1, ih cid h.2]

/-- Helper: `any` over a mapped list tests the composed predicate. -/
theorem any_map_general {α β : Type} (f : α → β) (p : β → Bool) :
    ∀ l : List α, (l.map f).any p = l.any (fun a => p (f a)) := by
  intro l
  induction l with
  | nil => rfl
  | cons a t ih => simp [ih]

/-- Helper: parent-ID lookup only depends on the ID skeleton. -/
theorem anyParentId_skeleton (ps : List ParentNode) (pid : Str) :
    anyParentId ps pid = (idSkeleton ps).any (fun e => e.1 == pid) := by
  rw [anyParentId, idSkeleton, any_map_general]

/-- Helper: child-ID lookup only depends on the ID skeleton. -/
theorem anyChildId_skeleton (ps : List ParentNode) (cid : Str) :
    anyChildId ps cid = (idSkeleton ps).any (fun e => e.2.any (fun i => i == cid)) := by
  rw [anyChildId, idSkeleton, any_map_general]
  congr 1
  funext p
  show p.children.any (fun c => c.id == cid) =
    (p.children.map (fun c => c.id)).any (fun i => i == cid)
  rw [any_map_general]

/-- Helper: a fold of skeleton-preserving steps preserves the skeleton. -/
theorem foldl_skeleton {f : List ParentNode → Str → List ParentNode}
    (hsk : ∀ ps pid, idSkeleton (f ps pid) = idSkeleton ps) :
    ∀ (ids : List Str) (ps : List ParentNode),
      idSkeleton (ids.foldl f ps) = idSkeleton ps := by
  intro ids
  induction ids with
  | nil =>
    intro ps
    rfl
  | cons i rest ih =>
    intro ps
    rw [List.foldl_cons, ih, hsk]

/-- Helper: a fold whose steps are no-ops on unknown IDs equals the fold over
the IDs known in the reference state. -/
theorem foldl_filter_known {f : List ParentNode → Str → List ParentNode}
    {known : List ParentNode → Str → Bool}
    (hsk : ∀ ps pid, idSkeleton (f ps pid) = idSkeleton ps)
    (hskip : ∀ ps pid, known ps pid = false → f ps pid = ps)
    (hcongr : ∀ ps qs pid, idSkeleton ps = idSkeleton qs → known ps pid = known qs pid)
    (psR : List ParentNode) :
    ∀ (ids : List Str) (ps : List ParentNode), idSkeleton ps = idSkeleton psR →
      ids.foldl f ps = (ids.filter (fun i => known psR i)).foldl f ps := by
  intro ids
  induction ids with
  | nil =>
    intro ps _
    rfl
  | cons i rest ih =>
    intro ps hps
    rw [List.foldl_cons]
    by_cases hk : known psR i = true
    · rw [List.filter_cons_of_pos (by simpa using hk), List.foldl_cons]
      exact ih (f ps i) (by rw [hsk]; exact hps)
    · have hkR : known psR i = false := by
        cases hkk : known psR i
        · rfl
        · exact absurd hkk hk
      have hk0 : known ps i = false := by
        rw [hcongr ps psR i hps]
        exact hkR
      rw [hskip ps i hk0, List.filter_cons_of_neg (by simp [hkR])]
      exact ih ps hps

/-- Claim C8 (amended): `setDDLData` returns `false` exactly when the
container is unresolvable; when it resolves the call returns `true`, and in
the multi-select modes supplied IDs with no matching node are skipped (logged
only) while the remaining IDs are applied; in single-select mode only the
first parent (else first child) ID is considered and a miss leaves the
selection cleared without failing. -/
theorem setSelection_error_handling :
    (∀ (st? : Option Dropdown) (parentsSel childrenSel : List Str),
      ((setDDLData st? parentsSel childrenSel).1 = false ↔ st? = none)) ∧
    (∀ (st : Dropdown) (parentsSel childrenSel : List Str),
      st.hasMultiSelect = true → st.hasTreeView = true →
      (setDDLData (some st) parentsSel childrenSel).2 =
        some (setTreeViewMultiSelections st
          (parentsSel.filter (fun pid => anyParentId st.parents pid))
          (childrenSel.filter (fun cid => anyChildId st.parents cid)))) ∧
    (∀ (st : Dropdown) (parentsSel childrenSel : List Str),
      st.hasMultiSelect = true → st.hasTreeView = false →
      (setDDLData (some st) parentsSel childrenSel).2 =
        some (setFlatMultiSelections st
          (parentsSel.filter (fun pid => anyParentId st.parents pid)))) ∧
    (∀ (st : Dropdown) (tid : Str),
      st.hasMultiSelect = false → tid ≠ [] →
      selectFirstParentOption st.hasTreeView
        (clearSelectedOptions st.hasTreeView st.parents) tid = none →
      selectFirstChildOption (clearSelectedOptions st.hasTreeView st.parents) tid = none →
      setSingleSelection st (some tid) =
        { st with parents := clearSelectedOptions st.hasTreeView st.parents }) := by
  have hcongrP : ∀ (a b : List ParentNode) (pid : Str),
      idSkeleton a = idSkeleton b → anyParentId a pid = anyParentId b pid := by
    intro a b pid h
    rw [anyParentId_skeleton, anyParentId_skeleton, h]
  have hcongrC : ∀ (a b : List ParentNode) (cid : Str),
      idSkeleton a = idSkeleton b → anyChildId a cid = anyChildId b cid := by
    intro a b cid h
    rw [anyChildId_skeleton, anyChildId_skeleton, h]
  refine ⟨?_, ?_, ?_, ?_⟩
  · intro st? parentsSel childrenSel
    cases st? with
    | none => simp [setDDLData]
    | some st => simp [setDDLData]
  · intro st parentsSel childrenSel hms htv
    simp only [setDDLData, hms, htv, if_true]
    have hparents : parentsSel.foldl (setParentChecked st.searchActive)
        (clearAllCheckboxes st.parents) =
        (parentsSel.filter (fun pid => anyParentId st.parents pid)).foldl
          (setParentChecked st.searchActive) (clearAllCheckboxes st.parents) :=
      foldl_filter_known (idSkeleton_setParentChecked st.searchActive)
        (setParentChecked_not_found st.searchActive) hcongrP st.parents parentsSel
        (clearAllCheckboxes st.parents) (idSkeleton_clearAll st.parents)
    have hchildren : childrenSel.foldl (setChildChecked st.searchActive)
        ((parentsSel.filter (fun pid => anyParentId st.parents pid)).foldl
          (setParentChecked st.searchActive) (clearAllCheckboxes st.parents)) =
        (childrenSel.filter (fun cid => anyChildId st.parents cid)).foldl
          (setChildChecked st.searchActive)
          ((parentsSel.filter (fun pid => anyParentId st.parents pid)).foldl
            (setParentChecked st.searchActive) (clearAllCheckboxes st.parents)) :=
      foldl_filter_known (idSkeleton_setChildChecked st.searchActive)
        (setChildChecked_not_found st.searchActive) hcongrC st.parents childrenSel _
        (by rw [foldl_skeleton (idSkeleton_setParentChecked st.searchActive)]
            exact idSkeleton_clearAll st.parents)
    simp only [setTreeViewMultiSelections]
    rw [hparents, hchildren]
  · intro st parentsSel childrenSel hms htv
    simp only [setDDLData, hms, htv, if_true, Bool.false_eq_true, if_false]
    have hparents : parentsSel.foldl setFlatParentChecked
        (st.parents.map (fun p => { p with checked := false })) =
        (parentsSel.filter (fun pid => anyParentId st.parents pid)).foldl
          setFlatParentChecked (st.parents.map (fun p => { p with checked := false })) :=
      foldl_filter_known (fun ps pid => idSkeleton_setFlatParentChecked ps pid)
        (fun ps pid h => setFlatParentChecked_not_found ps pid h) hcongrP st.parents
        parentsSel (st.parents.map (fun p => { p with checked := false }))
        (idSkeleton_clearFlat st.parents)
    simp only [setFlatMultiSelections, setFlatMultiSelectionsList]
    rw [hparents]
  · intro st tid hms hne hP hC
    have hempty : tid.isEmpty = false := by
      cases tid with
      | nil => exact absurd rfl hne
      | cons a t => rfl
    simp only [setSingleSelection, hempty, Bool.false_eq_true, if_false]
    rw [hP, hC]

/-- Witness for the amended C8: on a concrete multi-tree control the unknown
IDs are filtered out, and on a concrete single-flat control a missing target
leaves the selection cleared while the call still succeeds. -/
theorem setSelection_error_handling_witness :
    ((setDDLData (some exampleTreeDropdown) ["9".toList, "1".toList] ["999".toList]).2 =
      some (setTreeViewMultiSelections exampleTreeDropdown
        (["9".toList, "1".toList].filter
          (fun pid => anyParentId exampleTreeDropdown.parents pid))
        (["999".toList].filter
          (fun cid => anyChildId exampleTreeDropdown.parents cid)))) ∧
    (setSingleSelection exampleSingleSelected (some "9".toList) =
      { exampleSingleSelected with
          parents :=
            clearSelectedOptions exampleSingleSelected.hasTreeView
              exampleSingleSelected.parents }) :=
  ⟨setSelection_error_handling.2.1 exampleTreeDropdown _ _ rfl rfl,
   setSelection_error_handling.2.2.2 exampleSingleSelected "9".toList rfl (by decide)
     (by decide) (by decide)⟩

/-- Counterexample to C8 as stated: in single-select mode a resolvable call
with `parents = ["9", "1"]`, where `"9"` is unknown and `"1"` exists in the
tree, returns `true` but applies nothing: the remaining known ID `"1"` is NOT
selected (the previous selection of `"2"` is cleared and extraction returns an
empty result). -/
theorem setSelection_error_handling_counterexample :
    (setDDLData (some exampleSingleSelected) ["9".toList, "1".toList] []) =
      (true, some
        { exampleSingleSelected with
            parents := clearSelectedOptions false exampleSingleSelected.parents }) ∧
    anyParentId exampleSingleSelected.parents "1".toList = true ∧
    getDDLData (setDDLData (some exampleSingleSelected) ["9".toList, "1".toList] []).2 =
      { selected := [], hasData := false, selectionType := some "single-flat".toList } := by
  refine ⟨by decide, by decide, by decide⟩

/-! ## Claim C9: idempotence of parent-to-children propagation -/

/-- Claim C9: invoking the parent-to-children propagation twice with the same
target checkbox state (the parent's current `checked` value, which the handler
reads and never writes) produces exactly the same final marks on the parent
and all of its children as invoking it once. -/
theorem parent_propagation_idempotent (hasActiveSearch : Bool) (p : ParentNode) :
    handleParentCheckboxChange hasActiveSearch (handleParentCheckboxChange hasActiveSearch p) =
      handleParentCheckboxChange hasActiveSearch p := by
  simp only [handleParentCheckboxChange, List.map_map]
  congr 1
  apply List.map_congr_left
  intro c _
  cases hasActiveSearch
  · simp
  · by_cases hv : c.visible = true
    · simp [hv]
    · simp [hv]

end DDL
